import Mathlib

/-!
Formal model of the retrieval-and-evaluation core of the Flask-API video
question-answering service: transcript chunking (app.py, create_rag_index),
the Chroma-backed index (rag_engine.py), retrieval (app.py, retrieve_context),
and the evaluation engine (metrics_engine.py and the faithfulness metric in
app.py).  Python strings are embedded as lists of characters, Python floats as
rationals, and the external judge / embedding capabilities as explicit
parameters describing their observable outcomes.
-/

/-- Python strings are modelled as lists of characters. -/
abbrev Str := List Char

/-- The whitespace characters recognised by Python str.split() / str.strip(). -/
def isWs (c : Char) : Bool :=
  c = ' ' || c = '\t' || c = '\n' || c = '\r' || c = '\x0b' || c = '\x0c'

/-- Python str.split() with no separator: maximal whitespace-free words, with
empty pieces dropped. -/
def pyWords (s : Str) : List Str :=
  (s.splitOnP isWs).filter (fun w => !w.isEmpty)

/-- Python str.strip(): drop leading and trailing whitespace. -/
def pyStrip (s : Str) : Str :=
  ((s.dropWhile isWs).reverse.dropWhile isWs).reverse

theorem modifyHead_append_of_ne_nil {α : Type} (f : List α → List α)
    (L1 L2 : List (List α)) (h : L1 ≠ []) :
    (L1 ++ L2).modifyHead f = L1.modifyHead f ++ L2 := by
  cases L1 with
  | nil => exact absurd rfl h
  | cons x xs => rfl

theorem splitOnP_append_ws {c : Char} (h : isWs c = true) (s t : Str) :
    (s ++ c :: t).splitOnP isWs = s.splitOnP isWs ++ t.splitOnP isWs := by
  induction s with
  | nil => simp [h]
  | cons a s ih =>
    by_cases ha : isWs a
    · simp [ha, ih]
    · simp only [List.cons_append, List.splitOnP_cons, ha, Bool.false_eq_true,
        if_false, ih]
      rw [modifyHead_append_of_ne_nil _ _ _ (List.splitOnP_ne_nil _ s)]

theorem pyWords_nil : pyWords [] = [] := rfl

theorem pyWords_append_ws {c : Char} (h : isWs c = true) (s t : Str) :
    pyWords (s ++ c :: t) = pyWords s ++ pyWords t := by
  unfold pyWords
  rw [splitOnP_append_ws h, List.filter_append]

theorem pyWords_cons_ws {a : Char} (h : isWs a = true) (t : Str) :
    pyWords (a :: t) = pyWords t := by
  simp [pyWords, List.splitOnP_cons, h]

theorem pyWords_all_ws {t : Str} (h : ∀ c ∈ t, isWs c = true) : pyWords t = [] := by
  induction t with
  | nil => rfl
  | cons a t ih =>
    rw [pyWords_cons_ws (h a (List.mem_cons_self a t))]
    exact ih fun c hc => h c (List.mem_cons_of_mem _ hc)

theorem pyWords_append_all_ws {s t : Str} (h : ∀ c ∈ t, isWs c = true) :
    pyWords (s ++ t) = pyWords s := by
  cases t with
  | nil => simp
  | cons c t' =>
    rw [pyWords_append_ws (h c (List.mem_cons_self c t')),
      pyWords_all_ws (fun d hd => h d (List.mem_cons_of_mem _ hd)), List.append_nil]

theorem pyWords_dropWhile_ws (s : Str) : pyWords (s.dropWhile isWs) = pyWords s := by
  induction s with
  | nil => rfl
  | cons a s ih =>
    by_cases ha : isWs a
    · rw [List.dropWhile_cons_of_pos ha, ih, pyWords_cons_ws ha]
    · rw [List.dropWhile_cons_of_neg (by simp [ha])]

theorem reverse_dropWhile_decomp (u : Str) :
    u = (u.reverse.dropWhile isWs).reverse ++ (u.reverse.takeWhile isWs).reverse := by
  rw [← List.reverse_append, List.takeWhile_append_dropWhile, List.reverse_reverse]

theorem pyWords_pyStrip (s : Str) : pyWords (pyStrip s) = pyWords s := by
  unfold pyStrip
  have h1 : pyWords (((s.dropWhile isWs).reverse.dropWhile isWs).reverse)
      = pyWords (s.dropWhile isWs) := by
    conv_rhs => rw [reverse_dropWhile_decomp (s.dropWhile isWs)]
    rw [pyWords_append_all_ws]
    intro c hc
    rw [List.mem_reverse] at hc
    exact List.mem_takeWhile_imp hc
  rw [h1, pyWords_dropWhile_ws]

/-- A time-coded transcript segment, as consumed by create_rag_index
(app.py); start times are Python floats, embedded as rationals. -/
structure Seg where
  text : Str
  start : Rat
deriving DecidableEq

/-- A transcript chunk: trimmed accumulated text plus the start time of the
first accumulated segment (app.py, create_rag_index). -/
structure Chunk where
  text : Str
  start : Rat
deriving DecidableEq

/-- The chunking loop of create_rag_index (app.py lines 184-207): the three
arguments after the segment list are the accumulator current_chunk and
current_start.  Each segment appends a space plus its text; when the
accumulator length exceeds maxChars the chunk is flushed with stripped text,
the accumulator is reset and current_start is set to the flushed segment's
start; a non-empty trailing accumulator is flushed after the loop. -/
def chunkLoop (maxChars : Nat) : List Seg → Str → Rat → List Chunk
  | [], acc, accStart =>
    if acc.isEmpty then [] else [⟨pyStrip acc, accStart⟩]
  | e :: rest, acc, accStart =>
    let accStart' := if acc.isEmpty then e.start else accStart
    let acc' := acc ++ ' ' :: e.text
    if maxChars < acc'.length then
      ⟨pyStrip acc', accStart'⟩ :: chunkLoop maxChars rest [] e.start
    else
      chunkLoop maxChars rest acc' accStart'

/-- The chunker of create_rag_index (app.py lines 184-207), with the
CHUNK_SIZE threshold as an explicit parameter; current_chunk starts empty
and current_start starts at 0. -/
def create_rag_chunks (maxChars : Nat) (segs : List Seg) : List Chunk :=
  chunkLoop maxChars segs [] 0

/-- Modelled from the spec, section 4.1: the accumulate-and-flush loop in the
spec's own wording.  It differs from chunkLoop only in that after a flush the
spec merely resets the accumulator (the chunk-start variable is left alone,
to be overwritten at the next segment because the accumulator is empty). -/
def chunkSpecLoop (maxChars : Nat) : List Seg → Str → Rat → List Chunk
  | [], acc, accStart =>
    if acc.isEmpty then [] else [⟨pyStrip acc, accStart⟩]
  | e :: rest, acc, accStart =>
    let accStart' := if acc.isEmpty then e.start else accStart
    let acc' := acc ++ ' ' :: e.text
    if maxChars < acc'.length then
      ⟨pyStrip acc', accStart'⟩ :: chunkSpecLoop maxChars rest [] accStart'
    else
      chunkSpecLoop maxChars rest acc' accStart'

/-- Modelled from the spec, section 4.1: the chunker contract. -/
def chunk_spec (maxChars : Nat) (segs : List Seg) : List Chunk :=
  chunkSpecLoop maxChars segs [] 0

theorem chunkSpecLoop_start_irrel (maxChars : Nat) :
    ∀ (segs : List Seg) (s1 s2 : Rat),
      chunkSpecLoop maxChars segs [] s1 = chunkSpecLoop maxChars segs [] s2 := by
  intro segs
  induction segs with
  | nil => intro s1 s2; rfl
  | cons e rest ih => intro s1 s2; rfl

theorem chunkLoop_eq_spec (maxChars : Nat) :
    ∀ (segs : List Seg) (acc : Str) (accStart : Rat),
      chunkLoop maxChars segs acc accStart = chunkSpecLoop maxChars segs acc accStart := by
  intro segs
  induction segs with
  | nil => intro acc accStart; rfl
  | cons e rest ih =>
    intro acc accStart
    simp only [chunkLoop, chunkSpecLoop]
    by_cases h : maxChars < (acc ++ ' ' :: e.text).length
    · simp only [if_pos h]
      rw [ih, chunkSpecLoop_start_irrel]
    · simp only [if_neg h]
      exact ih _ _

theorem isWs_space : isWs ' ' = true := by decide

theorem chunkLoop_words (maxChars : Nat) :
    ∀ (segs : List Seg) (acc : Str) (accStart : Rat),
      ((chunkLoop maxChars segs acc accStart).map (fun c => pyWords c.text)).flatten
        = pyWords acc ++ (segs.map (fun e => pyWords e.text)).flatten := by
  intro segs
  induction segs with
  | nil =>
    intro acc accStart
    cases acc with
    | nil => rfl
    | cons a as => simp [chunkLoop, pyWords_pyStrip]
  | cons e rest ih =>
    intro acc accStart
    simp only [chunkLoop]
    by_cases h : maxChars < (acc ++ ' ' :: e.text).length
    · simp only [if_pos h, List.map_cons, List.flatten_cons]
      rw [pyWords_pyStrip, ih, pyWords_nil, List.nil_append,
        pyWords_append_ws isWs_space]
      simp [List.append_assoc]
    · simp only [if_neg h]
      rw [ih, pyWords_append_ws isWs_space]
      simp [List.append_assoc]

theorem chunkLoop_starts (maxChars : Nat) :
    ∀ segs : List Seg,
      (∀ accStart : Rat,
        ((chunkLoop maxChars segs [] accStart).map Chunk.start).Sublist
          (segs.map Seg.start))
      ∧ (∀ (acc : Str) (accStart : Rat), acc ≠ [] →
        ((chunkLoop maxChars segs acc accStart).map Chunk.start).Sublist
          (accStart :: segs.map Seg.start)) := by
  intro segs
  induction segs with
  | nil =>
    constructor
    · intro accStart; simp [chunkLoop]
    · intro acc accStart h
      cases acc with
      | nil => exact absurd rfl h
      | cons a as => simp [chunkLoop]
  | cons e rest ih =>
    constructor
    · intro accStart
      simp only [chunkLoop, List.nil_append, List.isEmpty_nil, if_true,
        List.map_cons]
      by_cases h : maxChars < (' ' :: e.text).length
      · simp only [if_pos h, List.map_cons]
        exact (ih.1 e.start).cons₂ e.start
      · simp only [if_neg h]
        exact ih.2 (' ' :: e.text) e.start (List.cons_ne_nil _ _)
    · intro acc accStart hacc
      cases acc with
      | nil => exact absurd rfl hacc
      | cons a as =>
        simp only [chunkLoop, List.isEmpty_cons, if_neg, List.map_cons,
          Bool.false_eq_true, if_false]
        by_cases h : maxChars < ((a :: as) ++ ' ' :: e.text).length
        · simp only [if_pos h, List.map_cons]
          exact ((ih.1 e.start).cons e.start).cons₂ accStart
        · simp only [if_neg h]
          exact ((ih.2 ((a :: as) ++ ' ' :: e.text) accStart
            (by simp)).trans
            ((List.sublist_cons_self e.start (rest.map Seg.start)).cons₂ accStart))

/-- C2: for every ordered segment list and every maxChars threshold, the
chunker of create_rag_index produces chunks by the spec's accumulate-and-flush
algorithm (chunk start = first accumulated segment's start; append a space
plus the segment text; flush with trimmed text exactly when the accumulated
length exceeds maxChars, fully including the crossing segment; flush any
non-empty trailing accumulation), and an empty segment list yields an empty
chunk list; the function is total, so no error is raised. -/
theorem C2_chunker_follows_spec_algorithm :
    (∀ (maxChars : Nat) (segs : List Seg),
      create_rag_chunks maxChars segs = chunk_spec maxChars segs)
    ∧ (∀ maxChars : Nat, create_rag_chunks maxChars [] = []) := by
  constructor
  · intro maxChars segs
    exact chunkLoop_eq_spec maxChars segs [] 0
  · intro maxChars; rfl

/-- C3: concatenating the chunk texts, in order, reproduces the word sequence
of the concatenated segment texts with no loss (up to whitespace
normalisation), and when the input segments are ordered by start time, each
chunk's start time is not less than the previous chunk's. -/
theorem C3_chunk_words_preserved_and_starts_monotone
    (maxChars : Nat) (segs : List Seg)
    (hsorted : (segs.map Seg.start).Chain' (· ≤ ·)) :
    ((create_rag_chunks maxChars segs).map (fun c => pyWords c.text)).flatten
      = (segs.map (fun e => pyWords e.text)).flatten
    ∧ ((create_rag_chunks maxChars segs).map Chunk.start).Chain' (· ≤ ·) := by
  constructor
  · rw [create_rag_chunks, chunkLoop_words, pyWords_nil, List.nil_append]
  · rw [List.chain'_iff_pairwise] at hsorted ⊢
    exact hsorted.sublist ((chunkLoop_starts maxChars segs).1 0)

/-- Concrete instantiation of C3: a two-segment transcript sorted by start
time, chunked with maxChars = 5. -/
theorem C3_witness :
    (([⟨"hello world".data, 0⟩, ⟨"foo".data, 2⟩] : List Seg).map Seg.start).Chain' (· ≤ ·)
    ∧ (((create_rag_chunks 5 [⟨"hello world".data, 0⟩, ⟨"foo".data, 2⟩]).map
          (fun c => pyWords c.text)).flatten
        = (([⟨"hello world".data, 0⟩, ⟨"foo".data, 2⟩] : List Seg).map
            (fun e => pyWords e.text)).flatten
      ∧ ((create_rag_chunks 5 [⟨"hello world".data, 0⟩, ⟨"foo".data, 2⟩]).map
          Chunk.start).Chain' (· ≤ ·)) :=
  ⟨by norm_num [List.chain'_cons, List.chain'_singleton],
    C3_chunk_words_preserved_and_starts_monotone 5
      [⟨"hello world".data, 0⟩, ⟨"foo".data, 2⟩]
      (by norm_num [List.chain'_cons, List.chain'_singleton])⟩

/-- Python int(token) on a whitespace-free token body: all decimal digits. -/
def parseNatDigits (s : Str) : Option Nat :=
  if s.isEmpty then none
  else if s.all Char.isDigit then
    some (s.foldl (fun acc c => 10 * acc + (c.toNat - 48)) 0)
  else none

/-- Python int(token) on a whitespace-free token: an optional sign followed by
decimal digits; none models the ValueError path. -/
def parseInt (s : Str) : Option Int :=
  match s with
  | '-' :: rest => (parseNatDigits rest).map (fun n => -(n : Int))
  | '+' :: rest => (parseNatDigits rest).map (fun n => (n : Int))
  | _ => (parseNatDigits s).map (fun n => (n : Int))

/-- int(response.strip().split()[0]) from metrics_engine.py: the first
whitespace-delimited token of the judge response parsed as an integer; none
models the IndexError (no token) and ValueError (not an integer) paths, both
caught by the surrounding handler. -/
def parseLeadingInt (response : Str) : Option Int :=
  match pyWords response with
  | [] => none
  | tok :: _ => parseInt tok

/-- Observable outcome of one call to the external judge (ollama_func) for
the 1-to-5 scoring prompts: the call either raises or returns response text. -/
inductive JudgeCall where
  | raised
  | returned (response : Str)
deriving DecidableEq

/-- calculate_coherence (metrics_engine.py lines 4-24): parse the first token
of the judge response as an integer and divide by 5; any raised error or
parse failure yields 0.0.  The answer text only feeds the judge prompt, so
the judge-call outcome is the sole input. -/
def calculate_coherence (call : JudgeCall) : Rat :=
  match call with
  | .raised => 0
  | .returned r =>
    match parseLeadingInt r with
    | none => 0
    | some score => (score : Rat) / 5

/-- calculate_correctness (metrics_engine.py lines 26-50): None when the
ground truth is falsy (absent or empty), otherwise the same 1-to-5 parse and
normalisation as coherence with the same fail-soft policy. -/
def calculate_correctness (ground_truth : Option Str) (call : JudgeCall) :
    Option Rat :=
  match ground_truth with
  | none => none
  | some g =>
    if g.isEmpty then none
    else some (match call with
      | .raised => 0
      | .returned r =>
        match parseLeadingInt r with
        | none => 0
        | some score => (score : Rat) / 5)

/-- The three retrieval-quality metrics of evaluate_retrieval
(metrics_engine.py lines 52-121). -/
structure RetrievalStats where
  context_precision : Rat
  mrr : Rat
  context_recall_proxy : Rat
deriving DecidableEq

/-- Observable outcome of the retrieval-judge call after JSON handling in
evaluate_retrieval: either a parsed relevant-index list (Python ints) plus the
sufficient flag, or any judge-call / JSON-parse failure. -/
inductive JudgeResponse where
  | parsed (relevant : List Int) (sufficient : Bool)
  | failure
deriving DecidableEq

/-- evaluate_retrieval (metrics_engine.py lines 52-121): empty contexts give
the zeroed triple without any judge call; a judge failure gives the zeroed
triple; otherwise precision = |relevant| / |contexts|, mrr = 1 / min(relevant)
(0.0 for an empty relevant list), recall proxy = 1.0 if sufficient else 0.5.
A relevant list whose minimum is 0 makes 1.0 / first_relevant_rank raise
ZeroDivisionError inside the try block, so the handler returns the zeroed
triple, discarding the already-computed precision. -/
def evaluate_retrieval (contexts : List Str) (judge : JudgeResponse) :
    RetrievalStats :=
  if contexts.isEmpty then ⟨0, 0, 0⟩
  else
    match judge with
    | .failure => ⟨0, 0, 0⟩
    | .parsed relevant sufficient =>
      match relevant with
      | [] =>
        ⟨(List.length ([] : List Int) : Rat) / (contexts.length : Rat), 0,
          if sufficient then 1 else 1 / 2⟩
      | i :: is =>
        let first_relevant_rank := is.foldl min i
        if first_relevant_rank = 0 then ⟨0, 0, 0⟩
        else
          ⟨((i :: is).length : Rat) / (contexts.length : Rat),
            1 / (first_relevant_rank : Rat),
            if sufficient then 1 else 1 / 2⟩

theorem foldl_min_mem (is : List Int) : ∀ i : Int, is.foldl min i ∈ i :: is := by
  induction is with
  | nil => intro i; simp
  | cons c cs ih =>
    intro i
    have h := ih (min i c)
    rw [List.foldl_cons]
    rcases List.mem_cons.mp h with h1 | h1
    · rcases min_choice i c with h2 | h2 <;> rw [h1, h2]
      · exact List.mem_cons_self _ _
      · exact List.mem_cons_of_mem _ (List.mem_cons_self _ _)
    · exact List.mem_cons_of_mem _ (List.mem_cons_of_mem _ h1)

/-- C4 counterexample: one retrieved chunk, judge-parsed relevant list [0]
with sufficient = true.  The claim's formula demands context_precision =
|R| / n = 1, but 1.0 / min(R) raises ZeroDivisionError inside the same try
block, so the code returns the zeroed triple: precision is 0, not 1. -/
theorem C4_counterexample :
    (evaluate_retrieval [['x']] (JudgeResponse.parsed [0] true)).context_precision = 0
    ∧ ((([0] : List Int).length : Rat) / (([['x']] : List Str).length : Rat)) = 1 := by
  constructor
  · rfl
  · norm_num

/-- C4 (amended): for a non-empty context list and a judge response parsed to
a relevant-index list R with 0 ∉ R and sufficient flag s, the code computes
context_precision = |R| / n, MRR = 1 / min(R) for non-empty R and 0.0
otherwise (hence 1.0 when index 1 is relevant and 0.5 when only index 2 is),
and context_recall_proxy = 1.0 if sufficient else 0.5; on total failure to
evaluate, all three are 0.0.  (When 0 ∈ R the reciprocal-rank division fails
and the failure path returns the zeroed triple instead.) -/
theorem C4_retrieval_metric_formulas (contexts : List Str) (R : List Int)
    (s : Bool) (hne : contexts ≠ []) (h0 : (0 : Int) ∉ R) :
    (evaluate_retrieval contexts (.parsed R s)).context_precision
        = (R.length : Rat) / (contexts.length : Rat)
    ∧ (evaluate_retrieval contexts (.parsed R s)).mrr
        = (match R with
            | [] => (0 : Rat)
            | i :: is => 1 / ((is.foldl min i : Int) : Rat))
    ∧ (evaluate_retrieval contexts (.parsed R s)).context_recall_proxy
        = (if s then (1 : Rat) else 1 / 2)
    ∧ (evaluate_retrieval contexts (.parsed [1] s)).mrr = 1
    ∧ (evaluate_retrieval contexts (.parsed [2] s)).mrr = 1 / 2
    ∧ (∀ ctxs : List Str, evaluate_retrieval ctxs .failure = ⟨0, 0, 0⟩) := by
  have hie : contexts.isEmpty = false := by
    cases contexts with
    | nil => exact absurd rfl hne
    | cons a l => rfl
  refine ⟨?_, ?_, ?_, ?_, ?_, ?_⟩
  · cases R with
    | nil => simp [evaluate_retrieval, hie]
    | cons i is =>
      have hmem := foldl_min_mem is i
      have hnz : is.foldl min i ≠ 0 := fun h => h0 (h ▸ hmem)
      simp [evaluate_retrieval, hie, hnz]
  · cases R with
    | nil => simp [evaluate_retrieval, hie]
    | cons i is =>
      have hmem := foldl_min_mem is i
      have hnz : is.foldl min i ≠ 0 := fun h => h0 (h ▸ hmem)
      simp [evaluate_retrieval, hie, hnz]
  · cases R with
    | nil => simp [evaluate_retrieval, hie]
    | cons i is =>
      have hmem := foldl_min_mem is i
      have hnz : is.foldl min i ≠ 0 := fun h => h0 (h ▸ hmem)
      simp [evaluate_retrieval, hie, hnz]
  · norm_num [evaluate_retrieval, hie]
  · norm_num [evaluate_retrieval, hie]
  · intro ctxs
    cases ctxs with
    | nil => rfl
    | cons a l => rfl

/-- Concrete instantiation of C4 (amended): one context, relevant list [1],
sufficient = true. -/
theorem C4_witness :
    (([['c']] : List Str) ≠ [] ∧ (0 : Int) ∉ ([1] : List Int))
    ∧ ((evaluate_retrieval [['c']] (.parsed [1] true)).context_precision
          = (([1] : List Int).length : Rat) / (([['c']] : List Str).length : Rat)
      ∧ (evaluate_retrieval [['c']] (.parsed [1] true)).mrr
          = (match ([1] : List Int) with
              | [] => (0 : Rat)
              | i :: is => 1 / ((is.foldl min i : Int) : Rat))
      ∧ (evaluate_retrieval [['c']] (.parsed [1] true)).context_recall_proxy
          = (if true then (1 : Rat) else 1 / 2)
      ∧ (evaluate_retrieval [['c']] (.parsed [1] true)).mrr = 1
      ∧ (evaluate_retrieval [['c']] (.parsed [2] true)).mrr = 1 / 2
      ∧ (∀ ctxs : List Str, evaluate_retrieval ctxs .failure = ⟨0, 0, 0⟩)) :=
  ⟨⟨by decide, by decide⟩,
    C4_retrieval_metric_formulas [['c']] [1] true (by decide) (by decide)⟩

/-- C7: nothing in the evaluation path raises past its own boundary:
coherence and correctness return 0.0 on a raised judge call or an
unparseable response (correctness wrapped in some, given a present non-empty
ground truth), and evaluate_retrieval returns the zeroed triple on any
judge-call or parse failure. -/
theorem C7_evaluation_path_fails_soft (r g : Str) (hg : g ≠ [])
    (hparse : parseLeadingInt r = none) :
    calculate_coherence (.returned r) = 0
    ∧ calculate_coherence .raised = 0
    ∧ calculate_correctness (some g) (.returned r) = some 0
    ∧ calculate_correctness (some g) .raised = some 0
    ∧ (∀ contexts : List Str, evaluate_retrieval contexts .failure = ⟨0, 0, 0⟩) := by
  have hgE : g.isEmpty = false := by
    cases g with
    | nil => exact absurd rfl hg
    | cons a l => rfl
  refine ⟨?_, rfl, ?_, ?_, ?_⟩
  · simp [calculate_coherence, hparse]
  · simp [calculate_correctness, hgE, hparse]
  · simp [calculate_correctness, hgE]
  · intro contexts
    cases contexts with
    | nil => rfl
    | cons a l => rfl

/-- Concrete instantiation of C7: judge response "score: unclear" has no
leading integer token, ground truth "ref" is present and non-empty. -/
theorem C7_witness :
    ("score: unclear".data ≠ ([] : Str) ∧ parseLeadingInt "score: unclear".data = none)
    ∧ (calculate_coherence (.returned "score: unclear".data) = 0
      ∧ calculate_coherence .raised = 0
      ∧ calculate_correctness (some "ref".data) (.returned "score: unclear".data) = some 0
      ∧ calculate_correctness (some "ref".data) .raised = some 0
      ∧ (∀ contexts : List Str, evaluate_retrieval contexts .failure = ⟨0, 0, 0⟩)) := by
  refine ⟨⟨by decide, by decide⟩, ?_⟩
  have h := C7_evaluation_path_fails_soft "score: unclear".data "ref".data
      (by decide) (by decide)
  exact ⟨h.1, h.2.1, h.2.2.1, h.2.2.2.1, h.2.2.2.2⟩

/-- C10: evaluate_retrieval called with an empty contexts list returns the
zeroed triple whatever the judge outcome would be — the early return precedes
the judge call, so the judge is never invoked. -/
theorem C10_empty_contexts_zeroed_without_judge :
    ∀ judge : JudgeResponse, evaluate_retrieval [] judge = ⟨0, 0, 0⟩ := by
  intro judge
  rfl

/-- Python str.lower(), character by character. -/
def pyLower (s : Str) : Str := s.map Char.toLower

/-- calculate_faithfulness (app.py lines 234-245): lower-cased word-set
overlap between answer and context text, normalised by the answer word-set
size; 0.0 for an answer with no words. -/
def calculate_faithfulness (answer context_text : Str) : Rat :=
  if (pyWords (pyLower answer)).toFinset = ∅ then 0
  else
    (((pyWords (pyLower answer)).toFinset
        ∩ (pyWords (pyLower context_text)).toFinset).card : Rat)
      / ((pyWords (pyLower answer)).toFinset.card : Rat)

theorem faithfulness_in_unit (a c : Str) :
    0 ≤ calculate_faithfulness a c ∧ calculate_faithfulness a c ≤ 1 := by
  unfold calculate_faithfulness
  by_cases h : (pyWords (pyLower a)).toFinset = ∅
  · rw [if_pos h]
    norm_num
  · rw [if_neg h]
    have hpos : 0 < ((pyWords (pyLower a)).toFinset.card : Rat) := by
      exact_mod_cast Finset.card_pos.mpr (Finset.nonempty_iff_ne_empty.mpr h)
    constructor
    · positivity
    · rw [div_le_one hpos]
      exact_mod_cast Finset.card_le_card Finset.inter_subset_left

/-- C6: faithfulness is the lower-cased word-set overlap between answer and
context normalised by the answer word-set size; it lies in [0,1]; it is 1.0
whenever the answer has at least one word and every answer word appears in
the context; and it is 0.0 when the answer has no words. -/
theorem C6_faithfulness_word_overlap (answer context_text : Str) :
    (calculate_faithfulness answer context_text
      = if (pyWords (pyLower answer)).toFinset = ∅ then 0
        else (((pyWords (pyLower answer)).toFinset
            ∩ (pyWords (pyLower context_text)).toFinset).card : Rat)
          / ((pyWords (pyLower answer)).toFinset.card : Rat))
    ∧ 0 ≤ calculate_faithfulness answer context_text
    ∧ calculate_faithfulness answer context_text ≤ 1
    ∧ ((pyWords (pyLower answer)).toFinset ≠ ∅ →
        (pyWords (pyLower answer)).toFinset ⊆ (pyWords (pyLower context_text)).toFinset →
        calculate_faithfulness answer context_text = 1)
    ∧ (pyWords (pyLower answer) = [] → calculate_faithfulness answer context_text = 0) := by
  refine ⟨rfl, (faithfulness_in_unit answer context_text).1,
    (faithfulness_in_unit answer context_text).2, ?_, ?_⟩
  · intro hne hsub
    unfold calculate_faithfulness
    rw [if_neg hne, Finset.inter_eq_left.mpr hsub, div_self]
    exact_mod_cast Finset.card_ne_zero.mpr (Finset.nonempty_iff_ne_empty.mpr hne)
  · intro hnil
    unfold calculate_faithfulness
    rw [if_pos (by rw [hnil]; rfl)]

/-- Concrete instantiation of C6: answer "The cat", context "the cat sat";
every answer word appears in the context, so faithfulness is 1. -/
theorem C6_witness :
    ((pyWords (pyLower "The cat".data)).toFinset ≠ ∅
      ∧ (pyWords (pyLower "The cat".data)).toFinset
          ⊆ (pyWords (pyLower "the cat sat".data)).toFinset)
    ∧ calculate_faithfulness "The cat".data "the cat sat".data = 1 :=
  ⟨⟨by decide, by decide⟩,
    (C6_faithfulness_word_overlap "The cat".data "the cat sat".data).2.2.2.1
      (by decide) (by decide)⟩

/-- The ChromaDB client state, modelled as a total map from collection name
to stored chunks; get_or_create_collection on a fresh name sees the empty
collection. -/
def ChromaStore := Str → List Chunk

/-- Collection naming of rag_engine.py (get_or_create_collection and
delete_index): "video_" ++ video_id with "-" replaced by "_" (the pattern is
a single character, so the replace is character-wise). -/
def collName (video_id : Str) : Str :=
  ("video_".data ++ video_id).map fun c => if c = '-' then '_' else c

/-- add_video_to_index (rag_engine.py lines 33-54): skip when the collection
is already populated, otherwise embed and add every chunk.  The Bool records
whether the embed-and-add step ran. -/
def add_video_to_index (store : ChromaStore) (video_id : Str)
    (chunks : List Chunk) : ChromaStore × Bool :=
  if 0 < (store (collName video_id)).length then (store, false)
  else (fun n => if n = collName video_id then store n ++ chunks else store n, true)

/-- A query result row of query_index: document text, start metadata and the
backend's distance. -/
structure RetrievedChunk where
  text : Str
  start : Rat
  distance : Rat
deriving DecidableEq

def insertByDistance (c : RetrievedChunk) :
    List RetrievedChunk → List RetrievedChunk
  | [] => [c]
  | d :: ds =>
    if c.distance ≤ d.distance then c :: d :: ds else d :: insertByDistance c ds

/-- The backend's nearest-neighbour ranking: results ordered by ascending
distance. -/
def rankByDistance (l : List RetrievedChunk) : List RetrievedChunk :=
  l.foldr insertByDistance []

/-- query_index (rag_engine.py lines 57-89): rank the stored chunks of the
video's collection by distance to the query (the embedding geometry is the
distance oracle dist) and keep the first k; an empty or never-built
collection contributes no rows, and the surrounding try/except returns [] on
error. -/
def query_index (store : ChromaStore) (dist : Str → Chunk → Rat)
    (video_id : Str) (query : Str) (k : Nat) : List RetrievedChunk :=
  let entries := store (collName video_id)
  let scored := entries.map fun c => RetrievedChunk.mk c.text c.start (dist query c)
  (rankByDistance scored).take k

/-- retrieve_context (app.py lines 215-232): delegate to query_index; the
top score is 1 - distance of the first result, or 0.0 when there are no
results. -/
def retrieve_context (store : ChromaStore) (dist : Str → Chunk → Rat)
    (video_id : Str) (query : Str) (top_k : Nat) :
    List RetrievedChunk × Rat :=
  let results := query_index store dist video_id query top_k
  let top_score : Rat :=
    match results with
    | [] => 0
    | r :: _ => 1 - r.distance
  (results, top_score)

/-- C5 counterexample: with an empty chunk list, the populated-collection
guard (count() > 0) never becomes true, so two successive builds for the
same video id both reach the embed-and-add step: the Bool is true twice,
not at most once. -/
theorem C5_counterexample :
    ((add_video_to_index (fun _ => []) "v".data []).2 = true)
    ∧ ((add_video_to_index
        (add_video_to_index (fun _ => []) "v".data []).1 "v".data []).2 = true) := by
  constructor
  · rfl
  · simp [add_video_to_index]

/-- C5 (amended): a build for a video id whose collection is already
non-empty performs no write and reports no embedding; hence, for a non-empty
chunk list, two successive builds for the same video id perform the
embed-and-add step at most once.  (With an empty chunk list the guard never
triggers and both calls reach the add step.) -/
theorem C5_index_build_at_most_once (store : ChromaStore) (video_id : Str)
    (chunks : List Chunk) (hchunks : chunks ≠ []) :
    (∀ s : ChromaStore, s (collName video_id) ≠ [] →
      add_video_to_index s video_id chunks = (s, false))
    ∧ ¬((add_video_to_index store video_id chunks).2 = true
        ∧ (add_video_to_index
            (add_video_to_index store video_id chunks).1 video_id chunks).2 = true) := by
  constructor
  · intro s hs
    have hpos : 0 < (s (collName video_id)).length := List.length_pos.mpr hs
    simp [add_video_to_index, hpos]
  · intro ⟨h1, h2⟩
    have hskip : ∀ s : ChromaStore, 0 < (s (collName video_id)).length →
        (add_video_to_index s video_id chunks).2 = false := by
      intro s hs
      simp [add_video_to_index, hs]
    by_cases hpos : 0 < (store (collName video_id)).length
    · rw [hskip store hpos] at h1
      exact Bool.false_ne_true h1
    · have hfirst :
          (add_video_to_index store video_id chunks).1
            = fun n => if n = collName video_id then store n ++ chunks else store n := by
        simp [add_video_to_index, hpos]
      have hempty : store (collName video_id) = [] :=
        List.eq_nil_of_length_eq_zero (Nat.eq_zero_of_not_pos hpos)
      have hlen : 0 < ((add_video_to_index store video_id chunks).1
          (collName video_id)).length := by
        rw [hfirst]
        simp only [if_pos rfl, hempty, List.nil_append]
        exact List.length_pos.mpr hchunks
      rw [hskip _ hlen] at h2
      exact Bool.false_ne_true h2

/-- Concrete instantiation of C5 (amended): empty store, one chunk; the
second build skips the embed-and-add step. -/
theorem C5_witness :
    ([(⟨"t".data, 0⟩ : Chunk)] ≠ [])
    ∧ ((∀ s : ChromaStore, s (collName "v".data) ≠ [] →
        add_video_to_index s "v".data [⟨"t".data, 0⟩] = (s, false))
      ∧ ¬((add_video_to_index (fun _ => []) "v".data [⟨"t".data, 0⟩]).2 = true
          ∧ (add_video_to_index
              (add_video_to_index (fun _ => []) "v".data [⟨"t".data, 0⟩]).1
              "v".data [⟨"t".data, 0⟩]).2 = true)) :=
  ⟨by simp,
    C5_index_build_at_most_once (fun _ => []) "v".data [⟨"t".data, 0⟩] (by simp)⟩

/-- C8: querying a video id whose collection is empty or was never built
returns an empty result set rather than raising, and the retriever then
returns an empty chunk list with topScore = 0.0. -/
theorem C8_empty_index_query_empty (store : ChromaStore)
    (dist : Str → Chunk → Rat) (video_id query : Str) (k top_k : Nat)
    (hempty : store (collName video_id) = []) :
    query_index store dist video_id query k = []
    ∧ retrieve_context store dist video_id query top_k = ([], 0) := by
  have hq : ∀ m : Nat, query_index store dist video_id query m = [] := by
    intro m
    unfold query_index
    rw [hempty]
    simp [rankByDistance]
  refine ⟨hq k, ?_⟩
  unfold retrieve_context
  rw [hq top_k]

/-- Concrete instantiation of C8: a store with no collections at all. -/
theorem C8_witness :
    ((fun _ => [] : ChromaStore) (collName "v".data) = [])
    ∧ (query_index (fun _ => []) (fun _ _ => 0) "v".data "q".data 5 = []
      ∧ retrieve_context (fun _ => []) (fun _ _ => 0) "v".data "q".data 5 = ([], 0)) :=
  ⟨rfl, C8_empty_index_query_empty (fun _ => []) (fun _ _ => 0) "v".data "q".data 5 5 rfl⟩

/-- Python int() on a float: truncation toward zero, here on a rational. -/
def intTrunc (q : Rat) : Int := q.num.tdiv (q.den : Int)

/-- The grounding context text built by ask (app.py lines 444-446): each
retrieved chunk rendered as "[Time: {int(start)}s] {text}", joined by blank
lines. -/
def context_text_of (chunks : List RetrievedChunk) : Str :=
  List.intercalate ('\n' :: '\n' :: [])
    (chunks.map fun c =>
      "[Time: ".data ++ (toString (intTrunc c.start)).data ++ "s] ".data ++ c.text)

/-- The metrics record returned by ask (app.py lines 469-479); latency is
wall-clock and kept outside the model. -/
structure Metrics where
  retrieval_score : Rat
  faithfulness : Rat
  answer_relevance : Rat
  coherence : Rat
  correctness : Option Rat
  context_precision : Rat
  context_recall : Rat
  mrr : Rat
deriving DecidableEq

/-- Assembly of the ask metrics record (app.py lines 435-479): top_score
comes from retrieve_context, answer_relevance is the externally computed
embedding cosine of question and answer, the three judge outcomes describe
the coherence, correctness and retrieval-evaluation calls. -/
def ask_metrics (answer : Str) (ground_truth : Option Str)
    (context_chunks : List RetrievedChunk)
    (top_score answer_relevance : Rat)
    (coherence_call correctness_call : JudgeCall)
    (retrieval_judge : JudgeResponse) : Metrics :=
  { retrieval_score := top_score
    faithfulness := calculate_faithfulness answer (context_text_of context_chunks)
    answer_relevance := answer_relevance
    coherence := calculate_coherence coherence_call
    correctness := calculate_correctness ground_truth correctness_call
    context_precision :=
      (evaluate_retrieval (context_chunks.map (fun c => c.text)) retrieval_judge).context_precision
    context_recall :=
      (evaluate_retrieval (context_chunks.map (fun c => c.text)) retrieval_judge).context_recall_proxy
    mrr := (evaluate_retrieval (context_chunks.map (fun c => c.text)) retrieval_judge).mrr }

/-- Well-formed 1-to-5 judge call: when the first response token parses, it
is in [0, 5]. -/
def scoreTokenOk (call : JudgeCall) : Bool :=
  match call with
  | .raised => true
  | .returned r =>
    match parseLeadingInt r with
    | none => true
    | some k => decide (0 ≤ k) && decide (k ≤ 5)

/-- Well-formed retrieval-judge response for n retrieved chunks: no more
relevant indices than chunks and every index at least 1. -/
def relevantIndicesOk (n : Nat) (judge : JudgeResponse) : Bool :=
  match judge with
  | .failure => true
  | .parsed relevant _ =>
    decide (relevant.length ≤ n) && relevant.all (fun i => decide (1 ≤ i))

theorem coherence_returned_eq (r : Str) :
    calculate_coherence (.returned r)
      = match parseLeadingInt r with
        | none => (0 : Rat)
        | some score => (score : Rat) / 5 := rfl

theorem scoreTokenOk_returned_eq (r : Str) :
    scoreTokenOk (.returned r)
      = match parseLeadingInt r with
        | none => true
        | some k => decide (0 ≤ k) && decide (k ≤ 5) := rfl

theorem coherence_in_unit {call : JudgeCall} (h : scoreTokenOk call = true) :
    0 ≤ calculate_coherence call ∧ calculate_coherence call ≤ 1 := by
  cases call with
  | raised => norm_num [calculate_coherence]
  | returned r =>
    rw [coherence_returned_eq]
    rw [scoreTokenOk_returned_eq] at h
    cases hp : parseLeadingInt r with
    | none => norm_num
    | some k =>
      rw [hp] at h
      simp only [Bool.and_eq_true, decide_eq_true_eq] at h
      constructor
      · exact div_nonneg (by exact_mod_cast h.1) (by norm_num)
      · rw [div_le_one (by norm_num)]
        exact_mod_cast h.2

theorem correctness_unfold (g : Str) (call : JudgeCall) :
    calculate_correctness (some g) call
      = if g.isEmpty then none else some (calculate_coherence call) := rfl

theorem correctness_cases (gt : Option Str) (call : JudgeCall)
    (h : scoreTokenOk call = true) :
    (calculate_correctness gt call = none ↔ (gt = none ∨ gt = some []))
    ∧ (∀ q : Rat, calculate_correctness gt call = some q → 0 ≤ q ∧ q ≤ 1) := by
  cases gt with
  | none => simp [calculate_correctness]
  | some g =>
    rw [correctness_unfold]
    by_cases hg : g.isEmpty
    · have hnil : g = [] := by
        cases g with
        | nil => rfl
        | cons a l => simp [List.isEmpty_cons] at hg
      simp [hg, hnil]
    · have hnil : ¬g = [] := by
        intro hc
        rw [hc] at hg
        exact hg rfl
      simp only [hg, Bool.false_eq_true, if_false]
      constructor
      · simp [hnil]
      · intro q hq
        have : q = calculate_coherence call := by
          injection hq with h2
          exact h2.symm
        rw [this]
        exact coherence_in_unit h

theorem retrieval_stats_in_unit (contexts : List Str) (judge : JudgeResponse)
    (h : relevantIndicesOk contexts.length judge = true) :
    (0 ≤ (evaluate_retrieval contexts judge).context_precision
      ∧ (evaluate_retrieval contexts judge).context_precision ≤ 1)
    ∧ (0 ≤ (evaluate_retrieval contexts judge).mrr
      ∧ (evaluate_retrieval contexts judge).mrr ≤ 1)
    ∧ (0 ≤ (evaluate_retrieval contexts judge).context_recall_proxy
      ∧ (evaluate_retrieval contexts judge).context_recall_proxy ≤ 1) := by
  by_cases hie : contexts.isEmpty = true
  · simp [evaluate_retrieval, hie]
  · have hn : 0 < (contexts.length : Rat) := by
      cases contexts with
      | nil => simp at hie
      | cons a l => exact_mod_cast Nat.succ_pos l.length
    cases judge with
    | failure => simp [evaluate_retrieval, hie]
    | parsed R s =>
      unfold relevantIndicesOk at h
      simp only [Bool.and_eq_true, decide_eq_true_eq, List.all_eq_true] at h
      obtain ⟨hlen, hall⟩ := h
      cases R with
      | nil =>
        refine ⟨?_, ?_, ?_⟩
        · simp [evaluate_retrieval, hie]
        · simp [evaluate_retrieval, hie]
        · cases s <;> norm_num [evaluate_retrieval, hie]
      | cons i is =>
        have hmem := foldl_min_mem is i
        have h1 : (1 : Int) ≤ is.foldl min i := hall _ hmem
        have hnz : is.foldl min i ≠ 0 := by omega
        have hm : (0 : Rat) < ((is.foldl min i : Int) : Rat) := by
          exact_mod_cast lt_of_lt_of_le Int.zero_lt_one h1
        refine ⟨?_, ?_, ?_⟩
        · simp only [evaluate_retrieval, hie, Bool.false_eq_true, if_false,
            if_neg hnz]
          constructor
          · positivity
          · rw [div_le_one hn]
            exact_mod_cast hlen
        · simp only [evaluate_retrieval, hie, Bool.false_eq_true, if_false,
            if_neg hnz]
          constructor
          · positivity
          · rw [div_le_one hm]
            exact_mod_cast h1
        · simp only [evaluate_retrieval, hie, Bool.false_eq_true, if_false,
            if_neg hnz]
          cases s <;> norm_num

/-- C1 counterexample: a well-formed run in which the coherence judge
replies "7": the first token parses, the code computes 7 / 5 = 1.4 > 1 with
no clamping, so not every metric lies in [0,1]; and with a supplied but
empty ground-truth string the correctness metric is None even though a
ground-truth reference was supplied. -/
theorem C1_counterexample :
    1 < (ask_metrics "a".data (some []) [⟨"c".data, 0, 0⟩] 0 0
        (.returned "7".data) .raised .failure).coherence
    ∧ (ask_metrics "a".data (some []) [⟨"c".data, 0, 0⟩] 0 0
        (.returned "7".data) .raised .failure).correctness = none := by
  constructor
  · have h7 : parseLeadingInt "7".data = some 7 := by decide
    show (1 : Rat) < calculate_coherence (.returned "7".data)
    rw [coherence_returned_eq, h7]
    norm_num
  · rfl

/-- C1 (amended): provided the externally supplied retrieval top score and
question-answer embedding cosine lie in [0,1], the 1-to-5 judge responses
parse (if at all) to integers in [0,5], and the retrieval judge's relevant
indices are at most as many as the retrieved chunks and all at least 1, every
numeric metric of the ask metrics record lies in [0,1]; the correctness
metric is None exactly when the ground truth is absent or empty, and is a
float in [0,1] otherwise. -/
theorem C1_metrics_unit_interval (answer : Str) (ground_truth : Option Str)
    (context_chunks : List RetrievedChunk) (top_score answer_relevance : Rat)
    (coherence_call correctness_call : JudgeCall) (retrieval_judge : JudgeResponse)
    (hts0 : 0 ≤ top_score) (hts1 : top_score ≤ 1)
    (har0 : 0 ≤ answer_relevance) (har1 : answer_relevance ≤ 1)
    (hcoh : scoreTokenOk coherence_call = true)
    (hcorr : scoreTokenOk correctness_call = true)
    (hret : relevantIndicesOk context_chunks.length retrieval_judge = true) :
    let m := ask_metrics answer ground_truth context_chunks top_score
      answer_relevance coherence_call correctness_call retrieval_judge
    (0 ≤ m.retrieval_score ∧ m.retrieval_score ≤ 1)
    ∧ (0 ≤ m.faithfulness ∧ m.faithfulness ≤ 1)
    ∧ (0 ≤ m.answer_relevance ∧ m.answer_relevance ≤ 1)
    ∧ (0 ≤ m.coherence ∧ m.coherence ≤ 1)
    ∧ (0 ≤ m.context_precision ∧ m.context_precision ≤ 1)
    ∧ (0 ≤ m.context_recall ∧ m.context_recall ≤ 1)
    ∧ (0 ≤ m.mrr ∧ m.mrr ≤ 1)
    ∧ (m.correctness = none ↔ (ground_truth = none ∨ ground_truth = some []))
    ∧ (∀ q : Rat, m.correctness = some q → 0 ≤ q ∧ q ≤ 1) := by
  intro m
  have hstats := retrieval_stats_in_unit (context_chunks.map (fun c => c.text))
    retrieval_judge (by rw [List.length_map]; exact hret)
  have hcorr2 := correctness_cases ground_truth correctness_call hcorr
  exact ⟨⟨hts0, hts1⟩, faithfulness_in_unit _ _, ⟨har0, har1⟩,
    coherence_in_unit hcoh, hstats.1, hstats.2.2, hstats.2.1, hcorr2.1, hcorr2.2⟩

/-- Concrete instantiation of C1 (amended): judge replies "4" (coherence) and
"3" (correctness), one retrieved chunk judged relevant and sufficient. -/
theorem C1_witness :
    (scoreTokenOk (.returned "4".data) = true
      ∧ scoreTokenOk (.returned "3".data) = true
      ∧ relevantIndicesOk
          ([(⟨"c".data, 0, 0⟩ : RetrievedChunk)]).length (.parsed [1] true) = true)
    ∧ (let m := ask_metrics "a".data (some "g".data) [⟨"c".data, 0, 0⟩] 1 (1 / 2)
          (.returned "4".data) (.returned "3".data) (.parsed [1] true)
      (0 ≤ m.retrieval_score ∧ m.retrieval_score ≤ 1)
      ∧ (0 ≤ m.faithfulness ∧ m.faithfulness ≤ 1)
      ∧ (0 ≤ m.answer_relevance ∧ m.answer_relevance ≤ 1)
      ∧ (0 ≤ m.coherence ∧ m.coherence ≤ 1)
      ∧ (0 ≤ m.context_precision ∧ m.context_precision ≤ 1)
      ∧ (0 ≤ m.context_recall ∧ m.context_recall ≤ 1)
      ∧ (0 ≤ m.mrr ∧ m.mrr ≤ 1)
      ∧ (m.correctness = none ↔ ((some "g".data : Option Str) = none ∨ (some "g".data : Option Str) = some []))
      ∧ (∀ q : Rat, m.correctness = some q → 0 ≤ q ∧ q ≤ 1)) :=
  ⟨⟨by decide, by decide, by decide⟩,
    C1_metrics_unit_interval "a".data (some "g".data) [⟨"c".data, 0, 0⟩] 1 (1 / 2)
      (.returned "4".data) (.returned "3".data) (.parsed [1] true)
      (by norm_num) (by norm_num) (by norm_num) (by norm_num)
      (by decide) (by decide) (by decide)⟩

/-- Modelled from the spec: the minimum-similarity threshold of the lexical
TF-IDF index variant, below which a retrieved chunk is excluded; the lexical
backend itself is absent from the sources (only its TfidfVectorizer import
remains in app.py). -/
def LEXICAL_MIN_SIMILARITY : Rat := 1 / 10

/-- A chunk scored by lexical cosine similarity in term-weight space. -/
structure ScoredChunk where
  chunk : Chunk
  score : Rat
deriving DecidableEq

def insertByScoreDesc (c : ScoredChunk) :
    List ScoredChunk → List ScoredChunk
  | [] => [c]
  | d :: ds =>
    if d.score ≤ c.score then c :: d :: ds else d :: insertByScoreDesc c ds

/-- Modelled from the spec: the lexical variant's query — rank the scored
chunks by cosine similarity descending, keep the top k positions, then
exclude every chunk whose similarity is below the minimum-similarity
threshold, so fewer than k (or zero) results may be returned. -/
def lexical_query (scored : List ScoredChunk) (k : Nat) : List ScoredChunk :=
  ((scored.foldr insertByScoreDesc []).take k).filter
    (fun p => decide (LEXICAL_MIN_SIMILARITY ≤ p.score))

/-- Outcome of the ask endpoint on the lexical backend. -/
inductive AskLexicalOutcome where
  | noRelevantInfo
  | answered (chunks : List ScoredChunk)
deriving DecidableEq

/-- Modelled from the spec: the ask path on the lexical backend — when the
thresholded retrieval survives empty (in particular whenever the top score is
below the threshold), return the fixed "no relevant information" response
without computing any generation-dependent metric; otherwise proceed to
generation with the surviving chunks. -/
def ask_lexical (scored : List ScoredChunk) (k : Nat) : AskLexicalOutcome :=
  match lexical_query scored k with
  | [] => .noRelevantInfo
  | r :: rs => .answered (r :: rs)

theorem mem_insertByScoreDesc {q c : ScoredChunk} :
    ∀ l : List ScoredChunk, q ∈ insertByScoreDesc c l → q = c ∨ q ∈ l := by
  intro l
  induction l with
  | nil =>
    intro h
    simp [insertByScoreDesc] at h
    exact Or.inl h
  | cons d ds ih =>
    intro h
    unfold insertByScoreDesc at h
    by_cases hc : d.score ≤ c.score
    · rw [if_pos hc] at h
      rcases List.mem_cons.mp h with h1 | h1
      · exact Or.inl h1
      · exact Or.inr h1
    · rw [if_neg hc] at h
      rcases List.mem_cons.mp h with h1 | h1
      · exact Or.inr (h1 ▸ List.mem_cons_self d ds)
      · rcases ih h1 with h2 | h2
        · exact Or.inl h2
        · exact Or.inr (List.mem_cons_of_mem d h2)

theorem mem_rank_desc {q : ScoredChunk} :
    ∀ scored : List ScoredChunk, q ∈ scored.foldr insertByScoreDesc [] → q ∈ scored := by
  intro scored
  induction scored with
  | nil => intro h; exact absurd h (List.not_mem_nil q)
  | cons c cs ih =>
    intro h
    rcases mem_insertByScoreDesc _ h with h1 | h1
    · exact h1 ▸ List.mem_cons_self c cs
    · exact List.mem_cons_of_mem c (ih h1)

/-- C9 (spec-modelled): every chunk returned by the lexical query has
similarity at least the 0.1 threshold (chunks below it are excluded even when
among the top-k positions), at most k results are returned, and when every
chunk scores below the threshold — in particular whenever the top score is
below it — the ask path returns the "no relevant information" outcome,
computing no generation-dependent metrics. -/
theorem C9_lexical_threshold_filtering (scored : List ScoredChunk) (k : Nat) :
    (∀ q ∈ lexical_query scored k, LEXICAL_MIN_SIMILARITY ≤ q.score)
    ∧ (lexical_query scored k).length ≤ k
    ∧ ((∀ p ∈ scored, p.score < LEXICAL_MIN_SIMILARITY) →
        ask_lexical scored k = .noRelevantInfo) := by
  refine ⟨?_, ?_, ?_⟩
  · intro q hq
    have := (List.mem_filter.mp hq).2
    exact of_decide_eq_true this
  · exact le_trans (List.length_filter_le _ _) (List.length_take_le _ _)
  · intro hbelow
    have hnil : lexical_query scored k = [] := by
      apply List.filter_eq_nil_iff.mpr
      intro p hp
      have hmem : p ∈ scored :=
        mem_rank_desc scored (List.mem_of_mem_take hp)
      simp only [decide_eq_true_eq]
      exact not_le.mpr (hbelow p hmem)
    unfold ask_lexical
    rw [hnil]

/-- Concrete instantiation of C9: one chunk scoring 0.05, below the 0.1
threshold; the query returns nothing and ask reports no relevant
information. -/
theorem C9_witness :
    (∀ p ∈ [(⟨⟨"a".data, 0⟩, 1 / 20⟩ : ScoredChunk)],
        p.score < LEXICAL_MIN_SIMILARITY)
    ∧ ask_lexical [⟨⟨"a".data, 0⟩, 1 / 20⟩] 5 = .noRelevantInfo :=
  ⟨by intro p hp; rw [List.mem_singleton] at hp; subst hp; norm_num [LEXICAL_MIN_SIMILARITY],
    (C9_lexical_threshold_filtering [⟨⟨"a".data, 0⟩, 1 / 20⟩] 5).2.2
      (by intro p hp; rw [List.mem_singleton] at hp; subst hp
          norm_num [LEXICAL_MIN_SIMILARITY])⟩
